import Mathlib

/-!
Shallow embedding of the dbs-vector ingestion / hybrid-search pipeline
(`src/dbs_vector/...`), together with theorems settling the frozen claims
about its specification.

Modelling conventions:
* Python floats appear in this code base only as opaque pass-through values
  (scores, durations); they are modelled by `ℚ` under the abbreviation `F32`.
* Python `str.strip()` is modelled by `pyStrip` (dropping whitespace
  characters from both ends of the character list).
* Hash functions (`hashlib.md5(...).hexdigest()`, `hashlib.sha256(...)`)
  are external primitives; definitions that use them are parameterised by
  functions `md5hex sha256hex : String → String`.
* Fallible Python code (code that can raise) is modelled with `Except`.
-/

namespace DbsVector

/-- Model of Python floats: the pipeline never computes with them, it only
moves them around, so rationals are a faithful executable stand-in. -/
abbrev F32 := ℚ

/-- Single-quote character (used by the source-filter SQL quoting model). -/
def sq : Char := Char.ofNat 39

/-- Model of Python `str.strip()` on a character list: drop whitespace from
the front, then from the back. -/
def stripChars (l : List Char) : List Char :=
  (((l.dropWhile Char.isWhitespace).reverse).dropWhile Char.isWhitespace).reverse

/-- Model of Python `str.strip()`. -/
def pyStrip (s : String) : String :=
  ⟨stripChars s.data⟩

/-- Model of Python slicing `s[:n]` (by code points). -/
def pyTake (s : String) (n : Nat) : String :=
  ⟨s.data.take n⟩

/-- Split a character list on the two-character separator `[a, b]`,
left-to-right and non-overlapping, keeping empty pieces — the semantics of
Python `str.split` for a two-character separator.  `cur` collects the
current piece reversed. -/
def splitOn2 (a b : Char) : List Char → List Char → List (List Char)
  | [], cur => [cur.reverse]
  | [c], cur => [(c :: cur).reverse]
  | c1 :: c2 :: rest, cur =>
    if c1 = a ∧ c2 = b then cur.reverse :: splitOn2 a b rest []
    else splitOn2 a b (c2 :: rest) (c1 :: cur)

/-- Model of Python `content.split("\n\n")`. -/
def pySplitNN (s : String) : List String :=
  (splitOn2 ('\n') ('\n') s.data []).map String.mk

/-! ## Core data model (`core/models.py`) -/

/-- `core/models.py` `Chunk`: a semantic piece of data extracted from a document. -/
structure Chunk where
  id : String
  text : String
  source : String
  content_hash : String
  node_type : Option String := none
  parent_scope : Option String := none
  line_range : Option String := none
deriving DecidableEq, Repr

/-- `core/models.py` `SqlChunk`: a single normalized SQL query parsed from a log. -/
structure SqlChunk where
  id : String
  text : String
  raw_query : String
  source : String
  execution_time_ms : F32
  calls : ℤ
  content_hash : String
deriving DecidableEq, Repr

/-- `core/models.py` `Document`: a raw document before chunking. -/
structure Document where
  filepath : String
  content : String
  content_hash : String
deriving DecidableEq, Repr

/-- `core/models.py` `SearchResult`. -/
structure SearchResult where
  chunk : Chunk
  score : Option F32 := none
  distance : Option F32 := none
  is_fts_match : Bool := false
deriving DecidableEq, Repr

/-- `core/models.py` `SqlSearchResult`. -/
structure SqlSearchResult where
  chunk : SqlChunk
  score : Option F32 := none
  distance : Option F32 := none
  is_fts_match : Bool := false
deriving DecidableEq, Repr

/-! ## Mappers (`infrastructure/storage/mappers.py`)

A record batch is modelled as its columns; the `vector` column is the
flattened child array (`vectors.ravel()`) of a fixed-size-list array of
width `vector_dimension`, exactly as built by
`pa.FixedSizeListArray.from_arrays(vectors.ravel(), list_size=...)`. -/

/-- `DocumentMapper` state: the engine's vector dimension. -/
structure DocumentMapper where
  vector_dimension : Nat
deriving DecidableEq, Repr

/-- Columns of the record batch produced by `DocumentMapper.to_record_batch`. -/
structure DocRecordBatch where
  id : List String
  vector : List F32
  vectorSize : Nat
  text : List String
  source : List String
  content_hash : List String
  workflow : List String
  node_type : List (Option String)
  parent_scope : List (Option String)
  line_range : List (Option String)
deriving DecidableEq, Repr

/-- `DocumentMapper.to_record_batch`: column-wise encoding of chunks and vectors. -/
def DocumentMapper.to_record_batch (m : DocumentMapper) (chunks : List Chunk)
    (vectors : List (List F32)) (workflow : String) : DocRecordBatch where
  id := chunks.map (fun c => c.id)
  vector := vectors.flatten
  vectorSize := m.vector_dimension
  text := chunks.map (fun c => c.text)
  source := chunks.map (fun c => c.source)
  content_hash := chunks.map (fun c => c.content_hash)
  workflow := chunks.map (fun _ => workflow)
  node_type := chunks.map (fun c => c.node_type)
  parent_scope := chunks.map (fun c => c.parent_scope)
  line_range := chunks.map (fun c => c.line_range)

/-- One result row handed to `DocumentMapper.from_polars_row`: the row
dictionary restricted to the fields the decoder reads.  Missing or null
optional columns surface as `none` (Python `row.get(...)`). -/
structure DocRow where
  id : String
  text : String
  source : String
  content_hash : String
  node_type : Option String
  parent_scope : Option String
  line_range : Option String
deriving DecidableEq, Repr

/-- Row `i` of a document record batch, reading each column at index `i`. -/
def DocRecordBatch.rowAt (b : DocRecordBatch) (i : Nat) : Option DocRow :=
  match b.id[i]?, b.text[i]?, b.source[i]?, b.content_hash[i]?,
      b.node_type[i]?, b.parent_scope[i]?, b.line_range[i]? with
  | some id, some text, some source, some hash, some nt, some ps, some lr =>
    some { id := id, text := text, source := source, content_hash := hash,
           node_type := nt, parent_scope := ps, line_range := lr }
  | _, _, _, _, _, _, _ => none

/-- `DocumentMapper.from_polars_row`: decode a result row plus score into a
`SearchResult` (`self` is unused by the method body). -/
def DocumentMapper.from_polars_row (row : DocRow) (score : Option F32) : SearchResult :=
  { chunk :=
      { id := row.id, text := row.text, source := row.source,
        content_hash := row.content_hash, node_type := row.node_type,
        parent_scope := row.parent_scope, line_range := row.line_range }
    score := score
    distance := score
    is_fts_match := score.isNone }

/-- `SqlMapper` state: the engine's vector dimension. -/
structure SqlMapper where
  vector_dimension : Nat
deriving DecidableEq, Repr

/-- Columns of the record batch produced by `SqlMapper.to_record_batch`. -/
structure SqlRecordBatch where
  id : List String
  vector : List F32
  vectorSize : Nat
  text : List String
  raw_query : List String
  source : List String
  execution_time_ms : List F32
  calls : List ℤ
  content_hash : List String
  workflow : List String
deriving DecidableEq, Repr

/-- `SqlMapper.to_record_batch`. -/
def SqlMapper.to_record_batch (m : SqlMapper) (chunks : List SqlChunk)
    (vectors : List (List F32)) (workflow : String) : SqlRecordBatch where
  id := chunks.map (fun c => c.id)
  vector := vectors.flatten
  vectorSize := m.vector_dimension
  text := chunks.map (fun c => c.text)
  raw_query := chunks.map (fun c => c.raw_query)
  source := chunks.map (fun c => c.source)
  execution_time_ms := chunks.map (fun c => c.execution_time_ms)
  calls := chunks.map (fun c => c.calls)
  content_hash := chunks.map (fun c => c.content_hash)
  workflow := chunks.map (fun _ => workflow)

/-- One result row handed to `SqlMapper.from_polars_row`. -/
structure SqlRow where
  id : String
  text : String
  raw_query : String
  source : String
  execution_time_ms : F32
  calls : ℤ
  content_hash : String
deriving DecidableEq, Repr

/-- Row `i` of a SQL record batch. -/
def SqlRecordBatch.rowAt (b : SqlRecordBatch) (i : Nat) : Option SqlRow :=
  match b.id[i]?, b.text[i]?, b.raw_query[i]?, b.source[i]?,
      b.execution_time_ms[i]?, b.calls[i]?, b.content_hash[i]? with
  | some id, some text, some raw, some source, some t, some n, some hash =>
    some { id := id, text := text, raw_query := raw, source := source,
           execution_time_ms := t, calls := n, content_hash := hash }
  | _, _, _, _, _, _, _ => none

/-- `SqlMapper.from_polars_row`. -/
def SqlMapper.from_polars_row (row : SqlRow) (score : Option F32) : SqlSearchResult :=
  { chunk :=
      { id := row.id, text := row.text, raw_query := row.raw_query,
        source := row.source, execution_time_ms := row.execution_time_ms,
        calls := row.calls, content_hash := row.content_hash }
    score := score
    distance := score
    is_fts_match := score.isNone }

/-! ## Document chunker (`infrastructure/chunking/document.py`) -/

/-- `DocumentChunker` state: the configured `max_chars` threshold. -/
structure DocumentChunker where
  max_chars : Nat
deriving DecidableEq, Repr

/-- Loop body of `DocumentChunker._chunk_text`: greedy packing of paragraphs.
`current` is the running buffer, `acc` the emitted candidate texts.  The
mid-loop flush appends `current.strip()` unconditionally; only the final
flush is guarded by `current.strip()` being non-empty, exactly as in the
Python loop. -/
def packLoop (maxChars : Nat) : List String → String → List String → List String
  | [], current, acc =>
    if pyStrip current ≠ "" then acc ++ [pyStrip current] else acc
  | p :: ps, current, acc =>
    if maxChars < current.length + p.length ∧ current ≠ "" then
      packLoop maxChars ps p (acc ++ [pyStrip current])
    else if current ≠ "" then
      packLoop maxChars ps (current ++ "\n\n" ++ p) acc
    else
      packLoop maxChars ps p acc

/-- `DocumentChunker._create_chunks`: filter texts whose stripped length is
below 5 and emit chunks indexed by position in the filtered sequence. -/
def DocumentChunker.create_chunks (document : Document) (texts : List String) : List Chunk :=
  let valid_texts := texts.filter (fun t => 5 ≤ (pyStrip t).length)
  valid_texts.enum.map (fun it =>
    { id := document.filepath ++ ("_chunk_") ++ Nat.repr it.1
      text := it.2
      source := document.filepath
      content_hash := document.content_hash
      node_type := none
      parent_scope := none
      line_range := none })

/-- `DocumentChunker._chunk_text`: split on double newlines and pack. -/
def DocumentChunker.chunk_text (self : DocumentChunker) (document : Document) : List Chunk :=
  let paragraphs := pySplitNN document.content
  DocumentChunker.create_chunks document (packLoop self.max_chars paragraphs "" [])

/-- Case-insensitive `.md` filepath test
(`document.filepath.lower().endswith(".md")`; ASCII lowering suffices for
the extension characters compared). -/
def endsWithMdCI (p : String) : Bool :=
  (p.data.map Char.toLower).reverse.take 3 = [('d'), ('m'), ('.')]

/-- `DocumentChunker.process`: dispatch on the filepath extension.  The
markdown branch tokenizes with the external `markdown_it` library and is
outside this model; it is represented by `none`. -/
def DocumentChunker.process (self : DocumentChunker) (document : Document) :
    Option (List Chunk) :=
  if endsWithMdCI document.filepath then none
  else some (self.chunk_text document)

/-! ## Python dynamic values (for the SQL chunker, `infrastructure/chunking/sql.py`) -/

/-- Shape of the value produced by `json.loads`. -/
inductive Json where
  | null
  | bool (b : Bool)
  | num (q : ℚ)
  | str (s : String)
  | arr (items : List Json)
  | obj (fields : List (String × Json))
deriving Repr

/-- Python exceptions the modelled code can raise. -/
inductive PyErr where
  | attributeError (msg : String)
  | typeError (msg : String)
  | valueError (msg : String)
  | validationError (msg : String)
  | indexError (msg : String)
deriving DecidableEq, Repr

/-- Python truthiness of a JSON value. -/
def Json.falsy : Json → Bool
  | .null => true
  | .bool b => !b
  | .num q => q == 0
  | .str s => s == ""
  | .arr items => items.isEmpty
  | .obj fields => fields.isEmpty

/-- Python `record.get(k)` on a parsed JSON object (missing key gives `None`;
with duplicate keys `json.loads` keeps the last occurrence). -/
def jGet (fields : List (String × Json)) (k : String) : Json :=
  (fields.reverse.lookup k).getD Json.null

/-- Python `a or b`. -/
def jOr (a b : Json) : Json :=
  if a.falsy then b else a

/-- Python `str(...)` restricted to the shapes that occur here; values other
than strings, booleans and `None` are rendered approximately (the repository
only ever formats strings and numbers this way). -/
def pyStr : Json → String
  | .str s => s
  | .null => "None"
  | .bool true => "True"
  | .bool false => "False"
  | .num q => toString q
  | .arr _ => "<list>"
  | .obj _ => "<dict>"

/-- Decimal digit run to a number (`natOfDigits [] = 0`). -/
def natOfDigits (l : List Char) : Nat :=
  l.foldl (fun a c => a * 10 + (c.toNat - 48)) 0

/-- Non-empty all-digit test. -/
def isDigitList (l : List Char) : Bool :=
  !l.isEmpty && l.all Char.isDigit

/-- Python `int(s)` on a string: optional sign then digits (whitespace is
stripped; underscores and other bases are not modelled). -/
def parsePyInt (s : String) : Option ℤ :=
  match (pyStrip s).data with
  | [] => none
  | c :: rest =>
    if c = ('-') then (if isDigitList rest then some (-(natOfDigits rest : ℤ)) else none)
    else if c = ('+') then (if isDigitList rest then some ((natOfDigits rest : ℤ)) else none)
    else if isDigitList (c :: rest) then some ((natOfDigits (c :: rest) : ℤ)) else none

/-- Python `float(s)` on a string: optional sign, digits, optional fractional
part (exponents, `inf`/`nan` and underscores are not modelled). -/
def parsePyFloat (s : String) : Option ℚ :=
  match (pyStrip s).data with
  | [] => none
  | c :: rest =>
    let ds := if c = ('-') ∨ c = ('+') then rest else c :: rest
    let neg := c = ('-')
    let signed : ℚ → ℚ := fun q => if neg then -q else q
    match ds.splitOn ('.') with
    | [ip] => if isDigitList ip then some (signed (natOfDigits ip)) else none
    | [ip, fp] =>
      if ip.isEmpty && fp.isEmpty then none
      else if ip.all Char.isDigit && fp.all Char.isDigit then
        some (signed ((natOfDigits ip : ℚ) + (natOfDigits fp : ℚ) / ((10 : ℚ) ^ fp.length)))
      else none
    | _ => none

/-- Truncation toward zero (`int()` applied to a float). -/
def truncRat (q : ℚ) : ℤ :=
  Int.sign q.num * (q.num.natAbs / q.den : ℕ)

/-- Python `float(v)` on a JSON value. -/
def pyFloat : Json → Except PyErr ℚ
  | .num q => .ok q
  | .bool b => .ok (if b then 1 else 0)
  | .str s =>
    match parsePyFloat s with
    | some q => .ok q
    | none => .error (.valueError ("could not convert string to float"))
  | .null => .error (.typeError ("float() argument must be a string or a real number, not NoneType"))
  | .arr _ => .error (.typeError ("float() argument must be a string or a real number"))
  | .obj _ => .error (.typeError ("float() argument must be a string or a real number"))

/-- Python `int(v)` on a JSON value (`int()` of a float truncates toward zero). -/
def pyInt : Json → Except PyErr ℤ
  | .num q => .ok (truncRat q)
  | .bool b => .ok (if b then 1 else 0)
  | .str s =>
    match parsePyInt s with
    | some n => .ok n
    | none => .error (.valueError ("invalid literal for int() with base 10"))
  | .null => .error (.typeError ("int() argument must be a string, not NoneType"))
  | .arr _ => .error (.typeError ("int() argument must be a string or a number"))
  | .obj _ => .error (.typeError ("int() argument must be a string or a number"))

/-! ## SQL chunker (`infrastructure/chunking/sql.py`)

The chunker is stateless.  `hashlib.md5(...).hexdigest()` and
`hashlib.sha256(...).hexdigest()` are external primitives, passed in as
`md5hex` and `sha256hex`. -/

/-- `SqlChunker.supported_extensions`. -/
def SqlChunker.supported_extensions : List String := [".json"]

/-- Loop body of `SqlChunker.process` for one record, in source order:
compute `raw`, `normalized`, `query_id`, `database`, `duration` and `calls`,
then skip the record when `normalized.strip()` is empty, else build the
chunk.  Dynamic-typing failures (`.get` on a non-object, `.encode()` or
`.strip()` on a non-string, `float()`/`int()` of an unconvertible value,
pydantic field validation) surface as `PyErr`s.  `none` means the record
was skipped. -/
def SqlChunker.chunkOfFields (md5hex sha256hex : String → String)
    (fields : List (String × Json)) : Except PyErr (Option SqlChunk) := do
    let raw := jOr (jGet fields ("query")) (.str "")
    let normalized := jOr (jOr (jGet fields ("normalized_query")) (jGet fields ("normalized"))) raw
    let query_id ←
      (if !(jGet fields ("query_hash")).falsy then Except.ok (jGet fields ("query_hash"))
       else if !(jGet fields ("id")).falsy then Except.ok (jGet fields ("id"))
       else
         match raw with
         | .str s => Except.ok (Json.str (md5hex s))
         | _ => Except.error (.attributeError ("object has no attribute encode")))
    let database := jOr (jOr (jGet fields ("database")) (jGet fields ("source"))) (.str "unknown")
    let duration ← pyFloat (jOr (jOr (jGet fields ("duration")) (jGet fields ("execution_time_ms"))) (.num 0))
    let calls ← pyInt (jOr (jGet fields ("calls")) (.num 1))
    let normStr ←
      match normalized with
      | .str s => Except.ok s
      | _ => Except.error (.attributeError ("object has no attribute strip"))
    if pyStrip normStr = "" then
      Except.ok none
    else do
      let contentHash := pyTake (sha256hex normStr) 16
      let rawStr ←
        match raw with
        | .str s => Except.ok s
        | _ => Except.error (.validationError ("raw_query must be a string"))
      let srcStr ←
        match database with
        | .str s => Except.ok s
        | _ => Except.error (.validationError ("source must be a string"))
      Except.ok (some
        { id := pyStr query_id
          text := normStr
          raw_query := rawStr
          source := srcStr
          execution_time_ms := duration
          calls := calls
          content_hash := contentHash })

/-- Dispatcher for one record: objects go through the field logic, anything
else raises (`record.get` on a non-object). -/
def SqlChunker.chunkOfRecord (md5hex sha256hex : String → String) (record : Json) :
    Except PyErr (Option SqlChunk) :=
  match record with
  | .obj fields => SqlChunker.chunkOfFields md5hex sha256hex fields
  | _ => Except.error (.attributeError ("object has no attribute get"))

/-- Record loop of `SqlChunker.process` (the generator, fully consumed). -/
def SqlChunker.processRecords (md5hex sha256hex : String → String) :
    List Json → Except PyErr (List SqlChunk)
  | [] => .ok []
  | r :: rs => do
    let c ← SqlChunker.chunkOfRecord md5hex sha256hex r
    let rest ← SqlChunker.processRecords md5hex sha256hex rs
    .ok (c.toList ++ rest)

/-- `SqlChunker.process`: `json.loads` is external, so the model takes its
outcome (a decode error, or the parsed value).  A decode failure is caught
(logged) and yields no chunks; a non-array value is warned about and yields
no chunks; an array is folded record by record. -/
def SqlChunker.process (md5hex sha256hex : String → String)
    (loadsResult : Except String Json) : Except PyErr (List SqlChunk) :=
  match loadsResult with
  | .error _ => .ok []
  | .ok (Json.arr records) => SqlChunker.processRecords md5hex sha256hex records
  | .ok _ => .ok []

/-! ## Embedder (`infrastructure/embeddings/mlx_engine.py`)

The MLX inference call (`_execute_mlx`) is external; it is modelled by the
`run` field, mapping the (already prefixed) batch of texts to the matrix of
row vectors the pooled `text_embeds` tensor materializes to. -/

/-- `MLXEmbedder` state.  `passagePre` and `queryPre` model the source's
passage/query prefix attributes. -/
structure MLXEmbedder where
  model_name : String
  max_token_length : Nat
  dimension : Nat
  passagePre : String
  queryPre : String
  run : List String → List (List F32)

/-- `MLXEmbedder.embed_batch`: empty input short-circuits to a `0 × D`
matrix without invoking the model; otherwise each text is prefixed with the
passage prefix and the batch is encoded. -/
def MLXEmbedder.embed_batch (e : MLXEmbedder) (texts : List String) : List (List F32) :=
  if texts.isEmpty then []
  else e.run (texts.map (fun t => e.passagePre ++ t))

/-- Message of the empty-query `ValueError` (the spec's `Validation` error). -/
def emptyQueryMsg : String := "Query text cannot be empty."

/-- Message of the shape-mismatch `ValueError` (the spec's `ShapeMismatch`). -/
def shapeMismatchMsg (expected got : Nat) : String :=
  "Expected (" ++ Nat.repr expected ++ ",), got (" ++ Nat.repr got ++ ",)"

/-- `MLXEmbedder.embed_query`: reject blank input, prefix with the query
prefix, encode as a batch of one, take row 0 (an empty matrix would raise
`IndexError`), and check the row's shape against the dimension. -/
def MLXEmbedder.embed_query (e : MLXEmbedder) (text : String) : Except PyErr (List F32) :=
  if pyStrip text = "" then .error (.valueError emptyQueryMsg)
  else
    match e.run [e.queryPre ++ text] with
    | [] => .error (.indexError ("index 0 is out of bounds for axis 0 with size 0"))
    | qv :: _ =>
      if qv.length ≠ e.dimension then
        .error (.valueError (shapeMismatchMsg e.dimension qv.length))
      else .ok qv

/-! ## Search service (`services/search.py`)

The vector store's `search` method is external to the service; it is passed
in as a function.  `execute_query` embeds the query (an embedding error
propagates, aborting before the store is touched) and then dispatches the
store search. -/

/-- `SearchService.execute_query`. -/
def SearchService.execute_query {R : Type} (emb : MLXEmbedder)
    (storeSearch : String → List F32 → Option String → Nat → List R)
    (query : String) (source_filter : Option String) (limit : Nat) :
    Except PyErr (List R) :=
  match emb.embed_query query with
  | .error e => .error e
  | .ok qv => .ok (storeSearch query qv source_filter limit)

/-! ## Ingestion service batch loop (`services/ingestion.py`)

The part of `IngestionService.ingest_directory` the claims are about is the
batch loop after the chunk generator: fetch the existing-hash snapshot once,
then for each batch partition against that fixed snapshot, embed and ingest
the new chunks, and accumulate counters.  Calls into the embedder and the
store are recorded as events so that "the store/embedder is not invoked"
is an inspectable fact of the model. -/

/-- The per-chunk data the batch loop reads. -/
structure IngChunk where
  content_hash : String
  text : String
deriving DecidableEq, Repr

/-- Calls the batch loop makes into its collaborators, in order. -/
inductive IngEvent where
  | getHashes
  | embedBatch (texts : List String)
  | ingestChunks (chunks : List IngChunk)
deriving DecidableEq, Repr

/-- Running state of the batch loop. -/
structure IngState where
  total : Nat
  skipped : Nat
  events : List IngEvent
deriving DecidableEq, Repr

/-- Membership test against the hash-set snapshot
(`c.content_hash not in existing_hashes`, negated). -/
def hashKnown (existing : List String) (c : IngChunk) : Bool :=
  existing.contains c.content_hash

/-- One iteration of the batch loop of `ingest_directory`. -/
def processBatch (existing : List String) (st : IngState) (batch : List IngChunk) :
    IngState :=
  if batch.isEmpty then st
  else
    let new_chunks := batch.filter (fun c => !hashKnown existing c)
    if new_chunks.isEmpty then
      { st with skipped := st.skipped + batch.length }
    else
      { total := st.total + new_chunks.length
        skipped := st.skipped + (batch.length - new_chunks.length)
        events := st.events ++
          [IngEvent.embedBatch (new_chunks.map (fun c => c.text)),
           IngEvent.ingestChunks new_chunks] }

/-- The batch loop of `ingest_directory`: `get_existing_hashes` is called
exactly once, before any batch is consumed, and the resulting snapshot
`existing` is used unchanged for every batch. -/
def ingestPass (existing : List String) (batches : List (List IngChunk)) : IngState :=
  batches.foldl (processBatch existing)
    { total := 0, skipped := 0, events := [IngEvent.getHashes] }

/-- Chunks sent to `store.ingest_chunks` over a run, in order. -/
def ingestedChunks : List IngEvent → List IngChunk
  | [] => []
  | IngEvent.ingestChunks cs :: rest => cs ++ ingestedChunks rest
  | _ :: rest => ingestedChunks rest

/-- Texts sent to `embedder.embed_batch` over a run, in order. -/
def embeddedTexts : List IngEvent → List String
  | [] => []
  | IngEvent.embedBatch ts :: rest => ts ++ embeddedTexts rest
  | _ :: rest => embeddedTexts rest

/-- Events one iteration of the batch loop appends (none when the batch is
empty or contains no new chunks). -/
def pbEvents (existing : List String) (batch : List IngChunk) : List IngEvent :=
  if batch.isEmpty then []
  else
    let new_chunks := batch.filter (fun c => !hashKnown existing c)
    if new_chunks.isEmpty then []
    else
      [IngEvent.embedBatch (new_chunks.map (fun c => c.text)),
       IngEvent.ingestChunks new_chunks]

/-! ## Source-filter prefilter (spec-modelled)

Modelled from the spec: the vector store implementation
(`infrastructure/storage/lancedb_engine.py`, `LanceDBStore.search`) is not
under `src/` — only its unit tests are.  Per spec §4.6 and the expectations
of `test_search_source_filter_sql_injection_protection`, the `source_filter`
prefilter is the predicate string `source = '<escaped>'` where escaping
doubles every single quote of the filter value. -/

/-- Double every single quote (ANSI SQL string-literal quoting). -/
def escList : List Char → List Char
  | [] => []
  | c :: cs => if c = sq then sq :: sq :: escList cs else c :: escList cs

/-- Modelled from the spec: quote-escape the `source_filter` value. -/
def escapeQuotes (s : String) : String :=
  ⟨escList s.data⟩

/-- Modelled from the spec: the prefilter predicate `source = '<escaped>'`
sent to the store for a `source_filter` value. -/
def sourceFilterPredicate (s : String) : String :=
  ⟨("source = ").data ++ [sq] ++ (escapeQuotes s).data ++ [sq]⟩

/-- Reference reader for ANSI-quoted literals: consume the literal body
(un-doubling quotes) up to a closing quote that must end the input; reject
anything else.  `acc` holds the literal read so far, reversed. -/
def readQuoted : List Char → List Char → Option String
  | [], _ => none
  | c :: rest, acc =>
    if c = sq then
      match rest with
      | [] => some ⟨acc.reverse⟩
      | c2 :: rest2 => if c2 = sq then readQuoted rest2 (sq :: acc) else none
    else readQuoted rest (c :: acc)

/-- Reference parser for the prefilter: accept exactly the strings of shape
`source = '<body>'` under ANSI quoting and return the literal the equality
compares against.  A predicate parses to `some v` precisely when it enforces
literal equality of the `source` column with `v`. -/
def parseSourcePred (p : String) : Option String :=
  if p.data.take 10 = ("source = ").data ++ [sq] then readQuoted (p.data.drop 10) []
  else none

/-! ## Specification vocabulary and comparison definitions -/

/-- Join a list of strings with a separator (vocabulary for stating which
texts the text chunker can emit). -/
def joinSep (sep : String) : List String → String
  | [] => ""
  | [x] => x
  | x :: xs => x ++ sep ++ joinSep sep xs

/-- A JSON field that is either absent/null or a string. -/
def jsonOfStrOpt : Option String → Json
  | none => Json.null
  | some s => Json.str s

/-- A JSON field that is either absent/null or a number. -/
def jsonOfNumOpt : Option ℚ → Json
  | none => Json.null
  | some q => Json.num q

/-- String fallback under Python truthiness: an empty string falls through. -/
def sOr (a b : String) : String :=
  if a = "" then b else a

/-- Numeric fallback under Python truthiness: zero falls through. -/
def qOr (a b : ℚ) : ℚ :=
  if a = 0 then b else a

/-- Null-coalescing fallback: only a missing/null field falls through.  This
is the claim's reading of `??`, written down for comparison with the code's
truthiness-based `or`. -/
def specCoalesce : Json → Json → Json
  | .null, b => b
  | a, _ => a

/-- Formalisation of the claimed record mapping with `??` read as
null-coalescing: identical to `SqlChunker.chunkOfRecord` except that every
fallback uses `specCoalesce` instead of Python `or` (the `query_hash`/`id`
chain falls through only on null, not on any falsy value). -/
def specChunkOfRecord (md5hex sha256hex : String → String) (record : Json) :
    Except PyErr (Option SqlChunk) :=
  match record with
  | .obj fields => do
    let raw := specCoalesce (jGet fields ("query")) (.str "")
    let normalized :=
      specCoalesce (specCoalesce (jGet fields ("normalized_query")) (jGet fields ("normalized"))) raw
    let query_id ←
      (match jGet fields ("query_hash") with
       | Json.null =>
         match jGet fields ("id") with
         | Json.null =>
           (match raw with
            | .str s => Except.ok (Json.str (md5hex s))
            | _ => Except.error (.attributeError ("object has no attribute encode")))
         | v => Except.ok v
       | v => Except.ok v)
    let database :=
      specCoalesce (specCoalesce (jGet fields ("database")) (jGet fields ("source"))) (.str "unknown")
    let duration ←
      pyFloat (specCoalesce (specCoalesce (jGet fields ("duration")) (jGet fields ("execution_time_ms"))) (.num 0))
    let calls ← pyInt (specCoalesce (jGet fields ("calls")) (.num 1))
    let normStr ←
      match normalized with
      | .str s => Except.ok s
      | _ => Except.error (.attributeError ("object has no attribute strip"))
    if pyStrip normStr = "" then
      Except.ok none
    else do
      let contentHash := pyTake (sha256hex normStr) 16
      let rawStr ←
        match raw with
        | .str s => Except.ok s
        | _ => Except.error (.validationError ("raw_query must be a string"))
      let srcStr ←
        match database with
        | .str s => Except.ok s
        | _ => Except.error (.validationError ("source must be a string"))
      Except.ok (some
        { id := pyStr query_id
          text := normStr
          raw_query := rawStr
          source := srcStr
          execution_time_ms := duration
          calls := calls
          content_hash := contentHash })
  | _ => Except.error (.attributeError ("object has no attribute get"))

/-! ## Concrete fixtures used by witnesses and counterexamples -/

/-- A record whose `duration` is present but `0` and whose `calls` is
present but `0`: Python `or` falls through on both, null-coalescing keeps
them. -/
def c6Record : Json :=
  Json.obj
    [(("normalized_query"), Json.str "SELECT 1"),
     (("query_hash"), Json.str "h1"),
     (("duration"), Json.num 0),
     (("execution_time_ms"), Json.num 5),
     (("calls"), Json.num 0)]

/-- A record exercising every fallback of the SQL chunker: blank
`normalized_query`, `query_hash` and `database` fall through to
`normalized`, `id` and `source`; zero `duration` falls through to
`execution_time_ms`. -/
def c6WitnessFields : List (String × Json) :=
  [(("query"), Json.str "SELECT 2"),
   (("normalized_query"), Json.str ""),
   (("normalized"), Json.str "SELECT ?"),
   (("query_hash"), Json.str ""),
   (("id"), Json.str "idv"),
   (("database"), Json.str ""),
   (("source"), Json.str "dbx"),
   (("duration"), Json.num 0),
   (("execution_time_ms"), Json.num (5/2)),
   (("calls"), Json.num 3)]

/-- Three-dimensional test embedder whose inference always yields one row. -/
def mlxE3 : MLXEmbedder :=
  { model_name := "m", max_token_length := 512, dimension := 3,
    passagePre := "passage: ", queryPre := "query: ",
    run := fun _ => [[1, 2, 3]] }

/-- Four-dimensional test embedder over the same inference output (its first
row has the wrong shape). -/
def mlxE4 : MLXEmbedder :=
  { model_name := "m", max_token_length := 512, dimension := 4,
    passagePre := "passage: ", queryPre := "query: ",
    run := fun _ => [[1, 2, 3]] }

/-- First chunk of the two-paragraph witness document. -/
def c9Chunk0 : Chunk :=
  { id := "a.txt_chunk_0", text := "hello world", source := "a.txt", content_hash := "h" }

/-- Second chunk of the two-paragraph witness document. -/
def c9Chunk1 : Chunk :=
  { id := "a.txt_chunk_1", text := "bye now friends", source := "a.txt", content_hash := "h" }

/-! # Theorems -/

/-- C2: for every row dictionary and every score `s`, both
`DocumentMapper.from_polars_row` and `SqlMapper.from_polars_row` return a
result in which `is_fts_match` holds exactly when `s` is `None`, and in
which `score` and `distance` both equal `s`. -/
theorem c2_from_row_postcondition :
    (∀ (row : DocRow) (s : Option F32),
      ((DocumentMapper.from_polars_row row s).is_fts_match = true ↔ s = none) ∧
      (DocumentMapper.from_polars_row row s).score = s ∧
      (DocumentMapper.from_polars_row row s).distance = s) ∧
    (∀ (row : SqlRow) (s : Option F32),
      ((SqlMapper.from_polars_row row s).is_fts_match = true ↔ s = none) ∧
      (SqlMapper.from_polars_row row s).score = s ∧
      (SqlMapper.from_polars_row row s).distance = s) := by
  refine ⟨fun row s => ⟨?_, rfl, rfl⟩, fun row s => ⟨?_, rfl, rfl⟩⟩ <;>
    simp [DocumentMapper.from_polars_row, SqlMapper.from_polars_row,
      Option.isNone_iff_eq_none]

/-- C1: mapper round-trip.  Encoding a single chunk (document or SQL) with
`to_record_batch` at any `(1, D)`-shaped vector matrix and any workflow,
then decoding row 0 with `from_polars_row` at any score `d`, restores the
chunk exactly (optional fields included) with distance `d`. -/
theorem c1_mapper_roundtrip :
    (∀ (m : DocumentMapper) (c : Chunk) (V : List (List F32)) (w : String) (d : Option F32),
      V.length = 1 → (∀ r ∈ V, r.length = m.vector_dimension) →
      ((m.to_record_batch [c] V w).rowAt 0).map
          (fun row => DocumentMapper.from_polars_row row d) =
        some { chunk := c, score := d, distance := d, is_fts_match := d.isNone }) ∧
    (∀ (m : SqlMapper) (c : SqlChunk) (V : List (List F32)) (w : String) (d : Option F32),
      V.length = 1 → (∀ r ∈ V, r.length = m.vector_dimension) →
      ((m.to_record_batch [c] V w).rowAt 0).map
          (fun row => SqlMapper.from_polars_row row d) =
        some { chunk := c, score := d, distance := d, is_fts_match := d.isNone }) := by
  constructor <;> (rintro m c V w d - -; cases c; rfl)

/-- Witness for C1 at concrete chunks, a `(1, 2)` vector matrix and both a
present and an absent score. -/
theorem c1_mapper_roundtrip_witness :
    (((DocumentMapper.mk 2).to_record_batch
          [{ id := "i", text := "t", source := "s", content_hash := "h" }] [[1, 2]] "wf").rowAt 0).map
        (fun row => DocumentMapper.from_polars_row row (some (1/2))) =
      some { chunk := { id := "i", text := "t", source := "s", content_hash := "h" },
             score := some (1/2), distance := some (1/2), is_fts_match := false } ∧
    (((SqlMapper.mk 2).to_record_batch
          [{ id := "i", text := "t", raw_query := "r", source := "s",
             execution_time_ms := 3, calls := 4, content_hash := "h" }] [[1, 2]] "wf").rowAt 0).map
        (fun row => SqlMapper.from_polars_row row none) =
      some { chunk := { id := "i", text := "t", raw_query := "r", source := "s",
                        execution_time_ms := 3, calls := 4, content_hash := "h" },
             score := none, distance := none, is_fts_match := true } :=
  ⟨c1_mapper_roundtrip.1 (DocumentMapper.mk 2) _ [[1, 2]] "wf" (some (1/2)) rfl
      (by intro r hr; simp at hr; simp [hr]),
   c1_mapper_roundtrip.2 (SqlMapper.mk 2) _ [[1, 2]] "wf" none rfl
      (by intro r hr; simp at hr; simp [hr])⟩

/-- Evaluation of `embed_query` on a non-blank query whose encoded batch has
a first row: everything reduces to the shape check on that row. -/
theorem embed_query_eq (e : MLXEmbedder) (text : String) (hne : pyStrip text ≠ "")
    (qv : List F32) (rest : List (List F32))
    (hrun : e.run [e.queryPre ++ text] = qv :: rest) :
    e.embed_query text =
      if qv.length ≠ e.dimension then
        .error (.valueError (shapeMismatchMsg e.dimension qv.length))
      else .ok qv := by
  simp only [MLXEmbedder.embed_query, hrun, if_neg hne]

/-- C8: `embed_query` rejects blank input with the empty-query `ValueError`
(the spec's `Validation`); any successfully returned vector has length `D`;
and for non-blank input whose encoded batch-of-one has a first row, the row
is returned when its shape is `(D,)` and the shape-mismatch `ValueError`
(the spec's `ShapeMismatch`) is raised otherwise. -/
theorem c8_embed_query_contract :
    ∀ (e : MLXEmbedder) (text : String),
      (pyStrip text = "" →
        e.embed_query text = .error (.valueError emptyQueryMsg)) ∧
      (∀ v, e.embed_query text = .ok v → v.length = e.dimension) ∧
      (∀ qv rest, pyStrip text ≠ "" → e.run [e.queryPre ++ text] = qv :: rest →
        (qv.length = e.dimension → e.embed_query text = .ok qv) ∧
        (qv.length ≠ e.dimension →
          e.embed_query text =
            .error (.valueError (shapeMismatchMsg e.dimension qv.length)))) := by
  intro e text
  refine ⟨fun h => ?_, fun v hv => ?_, fun qv rest hne hrun => ⟨fun hd => ?_, fun hd => ?_⟩⟩
  · simp [MLXEmbedder.embed_query, h]
  · by_cases hps : pyStrip text = ""
    · simp only [MLXEmbedder.embed_query, if_pos hps] at hv
      exact absurd hv (by simp)
    · cases hrun : e.run [e.queryPre ++ text] with
      | nil =>
        simp only [MLXEmbedder.embed_query, if_neg hps, hrun] at hv
        exact absurd hv (by simp)
      | cons qv rest =>
        rw [embed_query_eq e text hps qv rest hrun] at hv
        by_cases hl : qv.length = e.dimension
        · rw [if_neg (by simp [hl])] at hv
          obtain rfl : qv = v := by simpa using hv
          exact hl
        · rw [if_pos hl] at hv
          exact absurd hv (by simp)
  · rw [embed_query_eq e text hne qv rest hrun, if_neg (by simp [hd])]
  · rw [embed_query_eq e text hne qv rest hrun, if_pos hd]

/-- Witness for C8: blank query rejected; well-shaped first row returned
(length 3 = dimension); ill-shaped first row rejected with the
shape-mismatch message. -/
theorem c8_embed_query_contract_witness :
    mlxE3.embed_query "  " = .error (.valueError emptyQueryMsg) ∧
    mlxE3.embed_query "hi" = .ok [1, 2, 3] ∧
    mlxE4.embed_query "hi" = .error (.valueError (shapeMismatchMsg 4 3)) :=
  ⟨(c8_embed_query_contract mlxE3 "  ").1 (by decide),
   ((c8_embed_query_contract mlxE3 "hi").2.2 [1, 2, 3] [] (by decide) rfl).1 (by decide),
   ((c8_embed_query_contract mlxE4 "hi").2.2 [1, 2, 3] [] (by decide) rfl).2 (by decide)⟩

/-- C10: for a blank query the search service propagates the embedder's
empty-query `ValueError`, and its outcome does not depend on the store's
search function at all — the store is neither read nor modified. -/
theorem c10_blank_query_short_circuits :
    ∀ {R : Type} (emb : MLXEmbedder)
      (f g : String → List F32 → Option String → Nat → List R)
      (query : String) (sf : Option String) (limit : Nat),
      pyStrip query = "" →
      SearchService.execute_query emb f query sf limit =
          .error (.valueError emptyQueryMsg) ∧
      SearchService.execute_query emb f query sf limit =
          SearchService.execute_query emb g query sf limit := by
  intro R emb f g query sf limit h
  have he : emb.embed_query query = .error (.valueError emptyQueryMsg) := by
    simp [MLXEmbedder.embed_query, h]
  constructor <;> simp [SearchService.execute_query, he]

/-- Witness for C10 at a whitespace-only query and two stores that would
disagree if they were ever consulted. -/
theorem c10_blank_query_short_circuits_witness :
    SearchService.execute_query mlxE3 (fun _ _ _ _ => ([1] : List ℕ)) " \n " none 5 =
        .error (.valueError emptyQueryMsg) ∧
    SearchService.execute_query mlxE3 (fun _ _ _ _ => ([1] : List ℕ)) " \n " none 5 =
        SearchService.execute_query mlxE3 (fun _ _ _ _ => ([2] : List ℕ)) " \n " none 5 :=
  c10_blank_query_short_circuits mlxE3 _ _ " \n " none 5 (by decide)

/-- Reading an escaped body followed by the closing quote recovers exactly
the original characters after the accumulator. -/
theorem readQuoted_escList :
    ∀ (l acc : List Char), readQuoted (escList l ++ [sq]) acc = some ⟨acc.reverse ++ l⟩ := by
  intro l
  induction l with
  | nil =>
    intro acc
    simp [readQuoted, escList]
  | cons c cs ih =>
    intro acc
    cases hE : escList cs ++ [sq] with
    | nil => exact absurd hE (by simp)
    | cons d ds =>
      by_cases hc : c = sq
      · subst hc
        have hesc : escList (sq :: cs) ++ [sq] = sq :: sq :: d :: ds := by
          simp [escList, hE]
        have step : readQuoted (sq :: sq :: d :: ds) acc
            = readQuoted (d :: ds) (sq :: acc) := by
          simp [readQuoted]
        rw [hesc, step, ← hE, ih (sq :: acc)]
        simp
      · have hesc : escList (c :: cs) ++ [sq] = c :: d :: ds := by
          simp [escList, hc, hE]
        have step : readQuoted (c :: d :: ds) acc
            = readQuoted (d :: ds) (c :: acc) := by
          simp [readQuoted, hc]
        rw [hesc, step, ← hE, ih (c :: acc)]
        simp

/-- C5: for every `source_filter` value `s` the predicate sent to the store
is `source = '<escaped>'` with every single quote doubled; the reference
ANSI parser recovers exactly `s` from it, so the predicate enforces literal
equality with `s` and nothing else; and the injection attempt
`file' OR '1'='1` produces exactly `source = 'file'' OR ''1''=''1'`. -/
theorem c5_source_filter_literal_equality :
    (∀ s : String,
      (sourceFilterPredicate s).data =
        ("source = ").data ++ [sq] ++ (escapeQuotes s).data ++ [sq]) ∧
    (∀ s : String, parseSourcePred (sourceFilterPredicate s) = some s) ∧
    sourceFilterPredicate ⟨['f', 'i', 'l', 'e', sq, ' ', 'O', 'R', ' ', sq, '1', sq, '=', sq, '1']⟩ =
      ⟨("source = ").data ++
        [sq, 'f', 'i', 'l', 'e', sq, sq, ' ', 'O', 'R', ' ', sq, sq, '1', sq, sq, '=', sq, sq, '1', sq]⟩ := by
  refine ⟨fun s => by simp [sourceFilterPredicate], fun s => ?_, by decide⟩
  show parseSourcePred ⟨("source = ").data ++ [sq] ++ (escapeQuotes s).data ++ [sq]⟩ = some s
  unfold parseSourcePred
  have hpre : (("source = ").data ++ [sq]).length = 10 := by decide
  have hdata :
      ((⟨("source = ").data ++ [sq] ++ (escapeQuotes s).data ++ [sq]⟩ : String)).data =
        (("source = ").data ++ [sq]) ++ ((escapeQuotes s).data ++ [sq]) := by
    simp
  rw [hdata, ← hpre, List.take_left, List.drop_left, if_pos rfl]
  show readQuoted (escList s.data ++ [sq]) [] = some s
  rw [readQuoted_escList s.data []]
  rfl

/-- The batch-loop body only appends events. -/
theorem processBatch_events_eq (existing : List String) (st : IngState) (b : List IngChunk) :
    (processBatch existing st b).events = st.events ++ pbEvents existing b := by
  simp only [processBatch, pbEvents]
  split_ifs <;> simp

/-- Events of a whole pass: the initial snapshot fetch followed by each
batch's events in order. -/
theorem foldl_events (existing : List String) :
    ∀ (batches : List (List IngChunk)) (st : IngState),
      (batches.foldl (processBatch existing) st).events =
        st.events ++ (batches.map (pbEvents existing)).flatten := by
  intro batches
  induction batches with
  | nil => intro st; simp
  | cons b bs ih =>
    intro st
    simp only [List.foldl_cons, List.map_cons, List.flatten_cons]
    rw [ih, processBatch_events_eq]
    simp

/-- A batch iteration never fetches the hash snapshot. -/
theorem pbEvents_ne_getHashes (existing : List String) (b : List IngChunk) :
    ∀ e ∈ pbEvents existing b, e ≠ IngEvent.getHashes := by
  intro e he
  unfold pbEvents at he
  split_ifs at he with h1
  · simp at he
  · simp only [List.mem_ite_nil_left, List.mem_cons, List.not_mem_nil, or_false] at he
    rcases he with ⟨-, h | h⟩ <;> subst h <;> simp

/-- `ingestedChunks` distributes over event concatenation. -/
theorem ingestedChunks_append (a b : List IngEvent) :
    ingestedChunks (a ++ b) = ingestedChunks a ++ ingestedChunks b := by
  induction a with
  | nil => simp [ingestedChunks]
  | cons e rest ih => cases e <;> simp [ingestedChunks, ih]

/-- `embeddedTexts` distributes over event concatenation. -/
theorem embeddedTexts_append (a b : List IngEvent) :
    embeddedTexts (a ++ b) = embeddedTexts a ++ embeddedTexts b := by
  induction a with
  | nil => simp [embeddedTexts]
  | cons e rest ih => cases e <;> simp [embeddedTexts, ih]

/-- One batch iteration ingests exactly the batch's fresh chunks. -/
theorem ingested_pbEvents (existing : List String) (b : List IngChunk) :
    ingestedChunks (pbEvents existing b) = b.filter (fun c => !hashKnown existing c) := by
  unfold pbEvents
  split_ifs with h1
  · rw [List.isEmpty_iff] at h1
    subst h1
    simp [ingestedChunks]
  · by_cases h2 : (b.filter (fun c => !hashKnown existing c)).isEmpty
    · rw [if_pos h2]
      rw [List.isEmpty_iff] at h2
      simp [ingestedChunks, h2]
    · rw [if_neg h2]
      simp [ingestedChunks]

/-- One batch iteration embeds exactly the texts of the batch's fresh chunks. -/
theorem embedded_pbEvents (existing : List String) (b : List IngChunk) :
    embeddedTexts (pbEvents existing b) =
      (b.filter (fun c => !hashKnown existing c)).map (fun c => c.text) := by
  unfold pbEvents
  split_ifs with h1
  · rw [List.isEmpty_iff] at h1
    subst h1
    simp [embeddedTexts]
  · by_cases h2 : (b.filter (fun c => !hashKnown existing c)).isEmpty
    · rw [if_pos h2]
      rw [List.isEmpty_iff] at h2
      simp [embeddedTexts, h2]
    · rw [if_neg h2]
      simp [embeddedTexts]

/-- Pass-level accumulation of ingested chunks over the batch events. -/
theorem ingested_flatten (existing : List String) :
    ∀ batches : List (List IngChunk),
      ingestedChunks ((batches.map (pbEvents existing)).flatten) =
        (batches.map (fun b => b.filter (fun c => !hashKnown existing c))).flatten := by
  intro batches
  induction batches with
  | nil => simp [ingestedChunks]
  | cons b bs ih =>
    simp only [List.map_cons, List.flatten_cons]
    rw [ingestedChunks_append, ingested_pbEvents, ih]

/-- Pass-level accumulation of embedded texts over the batch events. -/
theorem embedded_flatten (existing : List String) :
    ∀ batches : List (List IngChunk),
      embeddedTexts ((batches.map (pbEvents existing)).flatten) =
        (batches.map (fun b =>
          (b.filter (fun c => !hashKnown existing c)).map (fun c => c.text))).flatten := by
  intro batches
  induction batches with
  | nil => simp [embeddedTexts]
  | cons b bs ih =>
    simp only [List.map_cons, List.flatten_cons]
    rw [embeddedTexts_append, embedded_pbEvents, ih]

/-- C3: over one ingest pass, the hash snapshot is fetched exactly once and
before any batch is consumed; a batch with no fresh chunks invokes neither
the embedder nor the store and only adds its size to the skipped count; and
because the snapshot is never refreshed, the chunks ingested (and the texts
embedded) over the pass are exactly the fresh chunks of every batch, once
per occurrence — duplicates arriving in different batches are each embedded
and inserted. -/
theorem c3_ingest_snapshot_semantics :
    ∀ (existing : List String) (batches : List (List IngChunk)),
      (∃ rest, (ingestPass existing batches).events = IngEvent.getHashes :: rest ∧
        ∀ e ∈ rest, e ≠ IngEvent.getHashes) ∧
      (∀ (st : IngState) (b : List IngChunk), b ≠ [] →
        b.filter (fun c => !hashKnown existing c) = [] →
        processBatch existing st b = { st with skipped := st.skipped + b.length }) ∧
      ingestedChunks (ingestPass existing batches).events =
        (batches.map (fun b => b.filter (fun c => !hashKnown existing c))).flatten ∧
      embeddedTexts (ingestPass existing batches).events =
        (batches.map (fun b =>
          (b.filter (fun c => !hashKnown existing c)).map (fun c => c.text))).flatten := by
  intro existing batches
  have hev : (ingestPass existing batches).events =
      IngEvent.getHashes :: (batches.map (pbEvents existing)).flatten := by
    unfold ingestPass
    rw [foldl_events]
    rfl
  refine ⟨⟨(batches.map (pbEvents existing)).flatten, hev, ?_⟩, ?_, ?_, ?_⟩
  · intro e he
    rw [List.mem_flatten] at he
    obtain ⟨l, hl, hel⟩ := he
    rw [List.mem_map] at hl
    obtain ⟨b, _, rfl⟩ := hl
    exact pbEvents_ne_getHashes existing b e hel
  · intro st b hb2 hf
    simp only [processBatch, hf]
    rw [if_neg (by simpa [List.isEmpty_iff] using hb2)]
    simp
  · rw [hev]
    have hstep :
        ingestedChunks (IngEvent.getHashes :: (batches.map (pbEvents existing)).flatten) =
          ingestedChunks ((batches.map (pbEvents existing)).flatten) := rfl
    rw [hstep, ingested_flatten]
  · rw [hev]
    have hstep :
        embeddedTexts (IngEvent.getHashes :: (batches.map (pbEvents existing)).flatten) =
          embeddedTexts ((batches.map (pbEvents existing)).flatten) := rfl
    rw [hstep, embedded_flatten]

/-- Witness for C3: snapshot `{h1}`; first batch holds one known and one
fresh chunk, the second batch only the known chunk (skipped without
embedder/store calls), the third batch repeats the fresh hash `h2` — and is
embedded and ingested again. -/
theorem c3_ingest_snapshot_semantics_witness :
    (∃ rest,
      (ingestPass ["h1"]
          [[⟨"h1", "a"⟩, ⟨"h2", "b"⟩], [⟨"h1", "c"⟩], [⟨"h2", "d"⟩]]).events =
        IngEvent.getHashes :: rest ∧ ∀ e ∈ rest, e ≠ IngEvent.getHashes) ∧
    processBatch ["h1"] ⟨0, 0, []⟩ [⟨"h1", "c"⟩] = ⟨0, 0 + 1, []⟩ ∧
    ingestedChunks
        (ingestPass ["h1"]
          [[⟨"h1", "a"⟩, ⟨"h2", "b"⟩], [⟨"h1", "c"⟩], [⟨"h2", "d"⟩]]).events =
      [⟨"h2", "b"⟩, ⟨"h2", "d"⟩] ∧
    embeddedTexts
        (ingestPass ["h1"]
          [[⟨"h1", "a"⟩, ⟨"h2", "b"⟩], [⟨"h1", "c"⟩], [⟨"h2", "d"⟩]]).events =
      ["b", "d"] := by
  obtain ⟨h1, h2, h3, h4⟩ :=
    c3_ingest_snapshot_semantics ["h1"]
      [[⟨"h1", "a"⟩, ⟨"h2", "b"⟩], [⟨"h1", "c"⟩], [⟨"h2", "d"⟩]]
  exact ⟨h1, h2 ⟨0, 0, []⟩ [⟨"h1", "c"⟩] (by decide) (by decide), by rw [h3]; decide,
    by rw [h4]; decide⟩

/-- The digit accumulator of `Nat.toDigitsCore` is pure prefixing. -/
theorem toDigitsCore_append (b f : Nat) :
    ∀ (n : Nat) (l : List Char),
      Nat.toDigitsCore b f n l = Nat.toDigitsCore b f n [] ++ l := by
  induction f with
  | zero => intro n l; simp [Nat.toDigitsCore]
  | succ f ih =>
    intro n l
    simp only [Nat.toDigitsCore]
    by_cases h : n / b = 0
    · simp [h]
    · simp only [h, if_false]
      rw [ih (n / b) (Nat.digitChar (n % b) :: l), ih (n / b) [Nat.digitChar (n % b)]]
      simp

/-- Decimal digit characters decode back to their value. -/
theorem digitChar_decode : ∀ m : Nat, m < 10 → (Nat.digitChar m).toNat - 48 = m := by
  intro m h
  interval_cases m <;> decide

/-- Decoding after appending one digit. -/
theorem natOfDigits_snoc (l : List Char) (c : Char) :
    natOfDigits (l ++ [c]) = natOfDigits l * 10 + (c.toNat - 48) := by
  simp [natOfDigits, List.foldl_append]

/-- With enough fuel, the digits of `n` decode back to `n`. -/
theorem toDigitsCore_decode :
    ∀ (f n : Nat), n < f → natOfDigits (Nat.toDigitsCore 10 f n []) = n := by
  intro f
  induction f with
  | zero => intro n h; omega
  | succ f ih =>
    intro n h
    simp only [Nat.toDigitsCore]
    by_cases hd : n / 10 = 0
    · have h10 : n % 10 = n := by omega
      simp [hd, natOfDigits, h10]
      exact digitChar_decode n (by omega)
    · simp only [hd, if_false]
      rw [toDigitsCore_append, natOfDigits_snoc,
        ih (n / 10) (by omega), digitChar_decode (n % 10) (by omega)]
      omega

/-- `Nat.repr` decodes back to its argument. -/
theorem natOfDigits_repr (n : Nat) : natOfDigits (Nat.repr n).data = n :=
  toDigitsCore_decode (n + 1) n (Nat.lt_succ_self n)

/-- Decimal rendering of naturals is injective. -/
theorem nat_repr_injective : Function.Injective Nat.repr := by
  intro m n h
  have h2 := congrArg (fun s => natOfDigits s.data) h
  simpa [natOfDigits_repr] using h2

/-- Left cancellation for string append. -/
theorem string_append_left_cancel {p a b : String} (h : p ++ a = p ++ b) : a = b := by
  have hd : p.data ++ a.data = p.data ++ b.data := by
    have h2 := congrArg String.data h
    simpa [String.data_append] using h2
  have h3 : a.data = b.data := List.append_cancel_left hd
  cases a with
  | mk da =>
    cases b with
    | mk db => exact congrArg String.mk (by simpa using h3)

/-- The `_create_chunks` texts are exactly the filtered candidate texts. -/
theorem create_chunks_map_text (document : Document) (texts : List String) :
    (DocumentChunker.create_chunks document texts).map (fun c => c.text) =
      texts.filter (fun t => 5 ≤ (pyStrip t).length) := by
  unfold DocumentChunker.create_chunks
  rw [List.map_map]
  exact List.enum_map_snd (texts.filter fun t => 5 ≤ (pyStrip t).length)

/-- The `_create_chunks` ids enumerate the filtered sequence. -/
theorem create_chunks_map_id (document : Document) (texts : List String) :
    (DocumentChunker.create_chunks document texts).map (fun c => c.id) =
      (List.range (texts.filter (fun t => 5 ≤ (pyStrip t).length)).length).map
        (fun i => document.filepath ++ ("_chunk_") ++ Nat.repr i) := by
  unfold DocumentChunker.create_chunks
  rw [List.map_map, ← List.enum_map_fst (texts.filter fun t => 5 ≤ (pyStrip t).length),
    List.map_map]
  rfl

/-- C4: for every document and candidate-text sequence, the emitted chunks
are exactly the texts whose trimmed length is at least 5, in order; their
ids are `{filepath}_chunk_{i}` with `i` the zero-based index into the
filtered sequence (hence pairwise distinct, with strictly increasing `i`);
and source, whole-file content hash and null AST fields are as claimed. -/
theorem c4_document_chunk_identity :
    ∀ (document : Document) (texts : List String),
      (DocumentChunker.create_chunks document texts).map (fun c => c.text) =
          texts.filter (fun t => 5 ≤ (pyStrip t).length) ∧
      (DocumentChunker.create_chunks document texts).map (fun c => c.id) =
          (List.range (texts.filter (fun t => 5 ≤ (pyStrip t).length)).length).map
            (fun i => document.filepath ++ ("_chunk_") ++ Nat.repr i) ∧
      ((DocumentChunker.create_chunks document texts).map (fun c => c.id)).Nodup ∧
      ∀ c ∈ DocumentChunker.create_chunks document texts,
        c.source = document.filepath ∧ c.content_hash = document.content_hash ∧
        c.node_type = none ∧ c.parent_scope = none ∧ c.line_range = none := by
  intro document texts
  refine ⟨create_chunks_map_text document texts, create_chunks_map_id document texts, ?_, ?_⟩
  · rw [create_chunks_map_id document texts]
    refine List.Nodup.map ?_ (List.nodup_range _)
    intro i j hij
    exact nat_repr_injective (string_append_left_cancel hij)
  · intro c hc
    unfold DocumentChunker.create_chunks at hc
    rw [List.mem_map] at hc
    obtain ⟨it, -, rfl⟩ := hc
    exact ⟨rfl, rfl, rfl, rfl, rfl⟩

/-- Witness for C4: three candidate texts of which the middle one is below
the length threshold. -/
theorem c4_document_chunk_identity_witness :
    (DocumentChunker.create_chunks ⟨"a.txt", "x", "h"⟩
        ["hello this", "hi", "worldly"]).map (fun c => c.text) =
      ["hello this", "worldly"] ∧
    (DocumentChunker.create_chunks ⟨"a.txt", "x", "h"⟩
        ["hello this", "hi", "worldly"]).map (fun c => c.id) =
      ["a.txt_chunk_0", "a.txt_chunk_1"] ∧
    ((DocumentChunker.create_chunks ⟨"a.txt", "x", "h"⟩
        ["hello this", "hi", "worldly"]).map (fun c => c.id)).Nodup ∧
    (⟨"a.txt_chunk_0", "hello this", "a.txt", "h", none, none, none⟩ : Chunk).source =
      "a.txt" := by
  obtain ⟨h1, h2, h3, h4⟩ :=
    c4_document_chunk_identity ⟨"a.txt", "x", "h"⟩ ["hello this", "hi", "worldly"]
  refine ⟨by rw [h1]; decide, by rw [h2]; decide, h3, ?_⟩
  exact (h4 ⟨"a.txt_chunk_0", "hello this", "a.txt", "h", none, none, none⟩ (by decide)).1

/-- Head of a `dropWhile` result never satisfies the predicate. -/
theorem dropWhile_head_not (p : Char → Bool) :
    ∀ (l : List Char) (c : Char), (l.dropWhile p).head? = some c → p c = false := by
  intro l
  induction l with
  | nil => intro c h; simp at h
  | cons a l ih =>
    intro c h
    rw [List.dropWhile_cons] at h
    by_cases ha : p a = true
    · rw [if_pos ha] at h
      exact ih c h
    · rw [if_neg ha] at h
      simp at h
      subst h
      simpa using ha

/-- A list whose head fails the predicate is unchanged by `dropWhile`. -/
theorem dropWhile_of_head_false (p : Char → Bool) (l : List Char)
    (h : ∀ c, l.head? = some c → p c = false) : l.dropWhile p = l := by
  cases l with
  | nil => rfl
  | cons a l => rw [List.dropWhile_cons, if_neg (by simp [h a rfl])]

/-- Stripping both ends is idempotent. -/
theorem stripChars_idem (l : List Char) : stripChars (stripChars l) = stripChars l := by
  set w := Char.isWhitespace with hw
  set A := l.dropWhile w with hA
  set B := A.reverse.dropWhile w with hB
  have hpre : B.reverse <+: A := by
    have hs : B <:+ A.reverse := List.dropWhile_suffix w
    have : B.reverse.reverse <:+ A.reverse := by simpa using hs
    exact List.reverse_suffix.mp this
  have hR : stripChars l = B.reverse := rfl
  rw [hR]
  show ((B.reverse.dropWhile w).reverse.dropWhile w).reverse = B.reverse
  have h1 : B.reverse.dropWhile w = B.reverse := by
    apply dropWhile_of_head_false
    intro c hc
    obtain ⟨u, hu⟩ := hpre
    cases hBr : B.reverse with
    | nil => rw [hBr] at hc; simp at hc
    | cons r rs =>
      rw [hBr] at hc
      simp at hc
      subst hc
      apply dropWhile_head_not w l
      rw [← hA, ← hu, hBr]
      rfl
  rw [h1]
  have h2 : B.reverse.reverse.dropWhile w = B.reverse.reverse := by
    simp only [List.reverse_reverse]
    apply dropWhile_of_head_false
    intro c hc
    exact dropWhile_head_not w A.reverse c hc
  rw [h2]
  simp

/-- `pyStrip` is idempotent. -/
theorem pyStrip_idem (s : String) : pyStrip (pyStrip s) = pyStrip s :=
  congrArg String.mk (stripChars_idem s.data)

/-- A string of length at least five is non-empty. -/
theorem ne_empty_of_five_le {s : String} (h : 5 ≤ s.length) : s ≠ "" := by
  intro e
  subst e
  simp at h

/-- Appending one element to a non-empty joined run appends a separator and
the element. -/
theorem joinSep_snoc (sep : String) :
    ∀ (run : List String) (p : String), run ≠ [] →
      joinSep sep (run ++ [p]) = joinSep sep run ++ sep ++ p := by
  intro run
  induction run with
  | nil => intro p h; cases h rfl
  | cons x rs ih =>
    intro p _
    cases rs with
    | nil => rfl
    | cons y ys =>
      show joinSep sep (x :: y :: (ys ++ [p])) =
        (x ++ sep ++ joinSep sep (y :: ys)) ++ sep ++ p
      have h1 : joinSep sep (x :: y :: (ys ++ [p])) =
          x ++ sep ++ joinSep sep ((y :: ys) ++ [p]) := rfl
      rw [h1, ih p (by simp)]
      simp [String.append_assoc]

/-- `packLoop` only ever appends to its accumulator. -/
theorem packLoop_acc_mono (maxChars : Nat) :
    ∀ (ps : List String) (current : String) (acc : List String),
      ∃ rest, packLoop maxChars ps current acc = acc ++ rest := by
  intro ps
  induction ps with
  | nil =>
    intro current acc
    by_cases h : pyStrip current ≠ ""
    · exact ⟨[pyStrip current], by simp [packLoop, h]⟩
    · exact ⟨[], by simp [packLoop, h]⟩
  | cons p ps ih =>
    intro current acc
    simp only [packLoop]
    split_ifs with h1 h2
    · obtain ⟨r, hr⟩ := ih p (acc ++ [pyStrip current])
      exact ⟨[pyStrip current] ++ r, by rw [hr]; simp⟩
    · exact ih _ acc
    · exact ih p acc

/-- Soundness of the paragraph packer: every emitted text is the strip of a
consecutive run of the remaining paragraphs (relative to the prefix `pre`
already consumed, of which the buffered `run` is a suffix). -/
theorem packLoop_sound (maxChars : Nat) :
    ∀ (ps : List String) (current : String) (acc : List String) (pre run : List String),
      current = joinSep ("\n\n") run → run <:+ pre →
      ∀ t ∈ packLoop maxChars ps current acc,
        t ∈ acc ∨ ∃ run', run' ≠ [] ∧ run' <:+: (pre ++ ps) ∧
          t = pyStrip (joinSep ("\n\n") run') := by
  intro ps
  induction ps with
  | nil =>
    intro current acc pre run hcur hsuf t ht
    simp only [packLoop] at ht
    split_ifs at ht with h
    · rcases List.mem_append.mp ht with h1 | h1
      · exact Or.inl h1
      · right
        have ht' : t = pyStrip current := by simpa using h1
        refine ⟨run, ?_, ?_, by rw [ht', hcur]⟩
        · rintro rfl
          exact h (by rw [hcur]; rfl)
        · rw [List.append_nil]
          exact hsuf.isInfix
    · exact Or.inl ht
  | cons p ps ih =>
    intro current acc pre run hcur hsuf t ht
    simp only [packLoop] at ht
    split_ifs at ht with h1 h2
    · rcases ih p (acc ++ [pyStrip current]) (pre ++ [p]) [p] rfl
          (List.suffix_append pre [p]) t ht with hin | ⟨run', hne, hinf, hteq⟩
      · rcases List.mem_append.mp hin with h3 | h3
        · exact Or.inl h3
        · right
          have ht' : t = pyStrip current := by simpa using h3
          refine ⟨run, ?_, ?_, by rw [ht', hcur]⟩
          · rintro rfl
            exact h1.2 hcur
          · exact (hsuf.isInfix).trans (List.prefix_append pre (p :: ps)).isInfix
      · right
        exact ⟨run', hne, by simpa [List.append_assoc] using hinf, hteq⟩
    · have hrun_ne : run ≠ [] := by
        rintro rfl
        exact h2 hcur
      have hnew : current ++ "\n\n" ++ p = joinSep ("\n\n") (run ++ [p]) := by
        rw [joinSep_snoc ("\n\n") run p hrun_ne, ← hcur]
      have hsuf' : run ++ [p] <:+ pre ++ [p] := by
        obtain ⟨u, hu⟩ := hsuf
        exact ⟨u, by rw [← List.append_assoc, hu]⟩
      rcases ih (current ++ "\n\n" ++ p) acc (pre ++ [p]) (run ++ [p]) hnew hsuf' t ht with
        hin | ⟨run', hne, hinf, hteq⟩
      · exact Or.inl hin
      · right
        exact ⟨run', hne, by simpa [List.append_assoc] using hinf, hteq⟩
    · rcases ih p acc (pre ++ [p]) [p] rfl (List.suffix_append pre [p]) t ht with
        hin | ⟨run', hne, hinf, hteq⟩
      · exact Or.inl hin
      · right
        exact ⟨run', hne, by simpa [List.append_assoc] using hinf, hteq⟩

/-- An over-long buffer is always flushed on its own. -/
theorem packLoop_big_current (maxChars : Nat) :
    ∀ (ps : List String) (current : String) (acc : List String),
      maxChars < current.length → pyStrip current ≠ "" →
      pyStrip current ∈ packLoop maxChars ps current acc := by
  intro ps
  induction ps with
  | nil =>
    intro current acc _ h2
    simp [packLoop, h2]
  | cons p ps ih =>
    intro current acc h1 h2
    have hcur : current ≠ "" := by
      intro e
      subst e
      exact h2 rfl
    have hcond : maxChars < current.length + p.length ∧ current ≠ "" :=
      ⟨by omega, hcur⟩
    simp only [packLoop, if_pos hcond]
    obtain ⟨r, hr⟩ := packLoop_acc_mono maxChars ps p (acc ++ [pyStrip current])
    rw [hr]
    simp

/-- A paragraph longer than `max_chars` is always emitted as its own chunk
text, whole. -/
theorem packLoop_big_para (maxChars : Nat) :
    ∀ (ps : List String) (current : String) (acc : List String) (p : String),
      p ∈ ps → maxChars < p.length → pyStrip p ≠ "" →
      pyStrip p ∈ packLoop maxChars ps current acc := by
  intro ps
  induction ps with
  | nil =>
    intro current acc p hp
    simp at hp
  | cons q qs ih =>
    intro current acc p hp hlen hne
    rcases List.mem_cons.mp hp with rfl | hp'
    · simp only [packLoop]
      split_ifs with h1 h2
      · exact packLoop_big_current maxChars qs p _ hlen hne
      · exact absurd ⟨by omega, h2⟩ h1
      · exact packLoop_big_current maxChars qs p acc hlen hne
    · simp only [packLoop]
      split_ifs with h1 h2
      · exact ih _ _ p hp' hlen hne
      · exact ih _ _ p hp' hlen hne
      · exact ih _ _ p hp' hlen hne

/-- C9: on a non-markdown document, every emitted chunk's text is the strip
of a `\n\n`-join of a consecutive run of the paragraphs obtained by
splitting the content on `\n\n`; and a paragraph longer than `max_chars`
whose stripped length is at least 5 always forms its own chunk, whole. -/
theorem c9_text_chunks_are_paragraph_runs :
    ∀ (self : DocumentChunker) (d : Document) (cs : List Chunk),
      endsWithMdCI d.filepath = false →
      DocumentChunker.process self d = some cs →
      (∀ c ∈ cs, ∃ run, run ≠ [] ∧ run <:+: pySplitNN d.content ∧
        c.text = pyStrip (joinSep ("\n\n") run)) ∧
      (∀ p ∈ pySplitNN d.content, self.max_chars < p.length →
        5 ≤ (pyStrip p).length → ∃ c ∈ cs, c.text = pyStrip p) := by
  intro self d cs hmd hproc
  have hcs : cs = self.chunk_text d := by
    unfold DocumentChunker.process at hproc
    rw [if_neg (by simp [hmd])] at hproc
    exact (Option.some_inj.mp hproc).symm
  subst hcs
  constructor
  · intro c hc
    have h1 : c.text ∈ (DocumentChunker.create_chunks d
        (packLoop self.max_chars (pySplitNN d.content) "" [])).map (fun c => c.text) :=
      List.mem_map_of_mem _ hc
    rw [create_chunks_map_text] at h1
    have h2 : c.text ∈ packLoop self.max_chars (pySplitNN d.content) "" [] :=
      List.mem_of_mem_filter h1
    rcases packLoop_sound self.max_chars (pySplitNN d.content) "" [] [] [] rfl
        (by simp) c.text h2 with h3 | h3
    · simp at h3
    · simpa using h3
  · intro p hp hlen h5
    have hne : pyStrip p ≠ "" := ne_empty_of_five_le h5
    have hmem : pyStrip p ∈ packLoop self.max_chars (pySplitNN d.content) "" [] :=
      packLoop_big_para self.max_chars _ "" [] p hp hlen hne
    have hkeep : pyStrip p ∈
        (packLoop self.max_chars (pySplitNN d.content) "" []).filter
          (fun t => 5 ≤ (pyStrip t).length) :=
      List.mem_filter.mpr ⟨hmem, by rw [pyStrip_idem]; simpa using h5⟩
    rw [← create_chunks_map_text d] at hkeep
    rw [List.mem_map] at hkeep
    obtain ⟨c, hc, hct⟩ := hkeep
    exact ⟨c, hc, hct⟩

/-- Witness for C9 on a two-paragraph text file with `max_chars = 5`: both
paragraphs exceed the threshold and become their own chunks. -/
theorem c9_text_chunks_are_paragraph_runs_witness :
    (∃ run, run ≠ [] ∧
      run <:+: pySplitNN ("hello world\n\nbye now friends") ∧
      c9Chunk0.text = pyStrip (joinSep ("\n\n") run)) ∧
    (∃ c ∈ [c9Chunk0, c9Chunk1], c.text = pyStrip ("bye now friends")) := by
  obtain ⟨h1, h2⟩ := c9_text_chunks_are_paragraph_runs ⟨5⟩
    ⟨"a.txt", "hello world\n\nbye now friends", "h"⟩ [c9Chunk0, c9Chunk1]
    (by decide) (by decide)
  exact ⟨h1 c9Chunk0 (by decide), h2 "bye now friends" (by decide) (by decide) (by decide)⟩

/-- Counterexample to C7 as stated: a well-formed JSON array whose element
is not an object makes the SQL chunker raise (`record.get` on an `int` is an
`AttributeError`) instead of logging and yielding the empty sequence. -/
theorem c7_counterexample :
    SqlChunker.process (fun _ => "") (fun _ => "") (Except.ok (Json.arr [Json.num 1])) =
      Except.error (PyErr.attributeError ("object has no attribute get")) := by
  rfl

/-- C7 (amended): the SQL chunker never raises on content that fails to
parse as JSON or parses to a non-array value — it logs and yields the empty
sequence — and the document chunker is a total function of the document on
the non-markdown path; but an array containing a non-object record does
raise (see the counterexample). -/
theorem c7_chunkers_absorb_malformed_input :
    (∀ (md5hex sha256hex : String → String) (e : String),
      SqlChunker.process md5hex sha256hex (Except.error e) = Except.ok []) ∧
    (∀ (md5hex sha256hex : String → String) (j : Json),
      (∀ records, j ≠ Json.arr records) →
      SqlChunker.process md5hex sha256hex (Except.ok j) = Except.ok []) ∧
    (∀ (self : DocumentChunker) (d : Document), endsWithMdCI d.filepath = false →
      DocumentChunker.process self d = some (self.chunk_text d)) := by
  refine ⟨fun _ _ _ => rfl, fun md5hex sha256hex j hj => ?_, fun self d hmd => ?_⟩
  · cases j with
    | arr records => exact absurd rfl (hj records)
    | null => rfl
    | bool b => rfl
    | num q => rfl
    | str s => rfl
    | obj f => rfl
  · unfold DocumentChunker.process
    rw [if_neg (by simp [hmd])]

/-- Witness for C7 (amended): a JSON decode error, a JSON object instead of
an array, and a plain text document. -/
theorem c7_chunkers_absorb_malformed_input_witness :
    SqlChunker.process (fun _ => "") (fun _ => "")
        (Except.error "Expecting value: line 1 column 1") = Except.ok [] ∧
    SqlChunker.process (fun _ => "") (fun _ => "") (Except.ok (Json.obj [])) = Except.ok [] ∧
    DocumentChunker.process ⟨1000⟩ ⟨"a.txt", "hello world", "h"⟩ =
      some (DocumentChunker.chunk_text ⟨1000⟩ ⟨"a.txt", "hello world", "h"⟩) := by
  obtain ⟨h1, h2, h3⟩ := c7_chunkers_absorb_malformed_input
  exact ⟨h1 (fun _ => "") (fun _ => "") ("Expecting value: line 1 column 1"),
    h2 (fun _ => "") (fun _ => "") (Json.obj []) (fun r h => Json.noConfusion h),
    h3 ⟨1000⟩ ⟨"a.txt", "hello world", "h"⟩ (by decide)⟩

/-- Truthiness of an absent-or-string field. -/
theorem falsy_strOpt (o : Option String) : (jsonOfStrOpt o).falsy = (o.getD "" == "") := by
  cases o <;> rfl

/-- An absent-or-string field with non-blank default view is a string. -/
theorem jsonOfStrOpt_of_ne {o : Option String} (h : o.getD "" ≠ "") :
    jsonOfStrOpt o = Json.str (o.getD "") := by
  cases o with
  | none => exact absurd rfl h
  | some s => rfl

/-- Python `or` on an absent-or-string field. -/
theorem jOr_strOpt (o : Option String) (b : Json) :
    jOr (jsonOfStrOpt o) b = if o.getD "" = "" then b else Json.str (o.getD "") := by
  cases o with
  | none => simp [jOr, jsonOfStrOpt, Json.falsy]
  | some s =>
    by_cases h : s = ""
    · simp [jOr, jsonOfStrOpt, Json.falsy, h]
    · simp [jOr, jsonOfStrOpt, Json.falsy, h]

/-- Python `or` of an absent-or-string field against a string gives the
truthiness fallback `sOr`. -/
theorem jOr_strOpt_str (o : Option String) (y : String) :
    jOr (jsonOfStrOpt o) (Json.str y) = Json.str (sOr (o.getD "") y) := by
  rw [jOr_strOpt]
  unfold sOr
  split_ifs <;> rfl

/-- A chained Python `or` over two absent-or-string fields and a string. -/
theorem jOr_jOr_strOpt (a b : Option String) (y : String) :
    jOr (jOr (jsonOfStrOpt a) (jsonOfStrOpt b)) (Json.str y) =
      Json.str (sOr (a.getD "") (sOr (b.getD "") y)) := by
  rw [jOr_strOpt a]
  by_cases h : a.getD "" = ""
  · rw [if_pos h, jOr_strOpt_str b y]
    unfold sOr
    rw [if_pos h]
  · rw [if_neg h]
    show jOr (Json.str (a.getD "")) (Json.str y) = _
    unfold jOr sOr
    simp [Json.falsy, h]

/-- Python `or` of an absent-or-number field against a number gives the
truthiness fallback `qOr`. -/
theorem jOr_numOpt_num (o : Option ℚ) (y : ℚ) :
    jOr (jsonOfNumOpt o) (Json.num y) = Json.num (qOr (o.getD 0) y) := by
  cases o with
  | none => simp [jOr, jsonOfNumOpt, Json.falsy, qOr]
  | some q =>
    by_cases h : q = 0
    · simp [jOr, jsonOfNumOpt, Json.falsy, qOr, h]
    · simp [jOr, jsonOfNumOpt, Json.falsy, qOr, h]

/-- Python `or` on an absent-or-number field. -/
theorem jOr_numOpt (o : Option ℚ) (b : Json) :
    jOr (jsonOfNumOpt o) b = if o.getD 0 = 0 then b else Json.num (o.getD 0) := by
  cases o with
  | none => simp [jOr, jsonOfNumOpt, Json.falsy]
  | some q =>
    by_cases h : q = 0
    · simp [jOr, jsonOfNumOpt, Json.falsy, h]
    · simp [jOr, jsonOfNumOpt, Json.falsy, h]

/-- Zero is a right identity of the truthiness fallback. -/
theorem qOr_zero (x : ℚ) : qOr x 0 = x := by
  unfold qOr
  split_ifs with h
  · rw [h]
  · rfl

/-- A chained Python `or` over two absent-or-number fields and zero. -/
theorem jOr_jOr_numOpt (a b : Option ℚ) :
    jOr (jOr (jsonOfNumOpt a) (jsonOfNumOpt b)) (Json.num 0) =
      Json.num (qOr (a.getD 0) (b.getD 0)) := by
  rw [jOr_numOpt a]
  by_cases h : a.getD 0 = 0
  · rw [if_pos h, jOr_numOpt_num b 0, qOr_zero]
    unfold qOr
    rw [if_pos h]
  · rw [if_neg h]
    show jOr (Json.num (a.getD 0)) (Json.num 0) = _
    unfold jOr qOr
    simp [Json.falsy, h]

/-- Counterexample to C6 as stated: for a record with `duration: 0`,
`execution_time_ms: 5` and `calls: 0`, the code's truthiness-based `or`
falls through the present-but-zero fields (giving 5.0 and 1), while the
claim's null-coalescing `??` keeps them (giving 0.0 and 0). -/
theorem c6_counterexample :
    SqlChunker.chunkOfRecord (fun _ => "") (fun _ => "") c6Record =
      Except.ok (some { id := "h1", text := "SELECT 1", raw_query := "",
                        source := "unknown", execution_time_ms := 5, calls := 1,
                        content_hash := "" }) ∧
    specChunkOfRecord (fun _ => "") (fun _ => "") c6Record =
      Except.ok (some { id := "h1", text := "SELECT 1", raw_query := "",
                        source := "unknown", execution_time_ms := 0, calls := 0,
                        content_hash := "" }) := by
  constructor <;> rfl

/-- C6 (amended): for every record of a well-formed JSON array whose
referenced fields are absent, null, or of the expected type (strings for the
text/id/source fields, numbers for the timing/calls fields), the emitted
chunk follows the fallback order of the claim with Python-truthiness
coalescing: a present but falsy field (null, `0`, `""`) falls through to the
next alternative.  Text is `normalized_query or normalized or query or ""`
(record skipped when blank after strip); id is
`query_hash or id or md5hex(raw)`; source is
`database or source or "unknown"`; `execution_time_ms` is
`float(duration or execution_time_ms or 0.0)`; `calls` is
`int(calls or 1)`; `content_hash` is the first 16 characters of the SHA-256
hex digest of the text. -/
theorem c6_sql_record_fallbacks :
    ∀ (md5hex sha256hex : String → String) (fields : List (String × Json))
      (q nq nz qh idf db srcf : Option String) (du ex ca : Option ℚ),
      jGet fields ("query") = jsonOfStrOpt q →
      jGet fields ("normalized_query") = jsonOfStrOpt nq →
      jGet fields ("normalized") = jsonOfStrOpt nz →
      jGet fields ("query_hash") = jsonOfStrOpt qh →
      jGet fields ("id") = jsonOfStrOpt idf →
      jGet fields ("database") = jsonOfStrOpt db →
      jGet fields ("source") = jsonOfStrOpt srcf →
      jGet fields ("duration") = jsonOfNumOpt du →
      jGet fields ("execution_time_ms") = jsonOfNumOpt ex →
      jGet fields ("calls") = jsonOfNumOpt ca →
      SqlChunker.chunkOfRecord md5hex sha256hex (Json.obj fields) =
        (if pyStrip (sOr (nq.getD "") (sOr (nz.getD "") (q.getD ""))) = "" then
          Except.ok none
        else
          Except.ok (some
            { id := sOr (qh.getD "") (sOr (idf.getD "") (md5hex (q.getD "")))
              text := sOr (nq.getD "") (sOr (nz.getD "") (q.getD ""))
              raw_query := q.getD ""
              source := sOr (db.getD "") (sOr (srcf.getD "") ("unknown"))
              execution_time_ms := qOr (du.getD 0) (ex.getD 0)
              calls := truncRat (qOr (ca.getD 0) 1)
              content_hash :=
                pyTake (sha256hex (sOr (nq.getD "") (sOr (nz.getD "") (q.getD "")))) 16 })) := by
  intro md5hex sha256hex fields q nq nz qh idf db srcf du ex ca
  intro hq hnq hnz hqh hid hdb hsrc hdu hex hca
  show SqlChunker.chunkOfFields md5hex sha256hex fields = _
  simp only [SqlChunker.chunkOfFields]
  rw [hq, hnq, hnz, hqh, hid, hdb, hsrc, hdu, hex, hca]
  have hq0 : sOr (q.getD "") "" = q.getD "" := by
    unfold sOr
    split_ifs with h
    · rw [h]
    · rfl
  rw [jOr_strOpt_str q "", hq0, jOr_jOr_strOpt nq nz, jOr_jOr_strOpt db srcf,
    jOr_jOr_numOpt du ex, jOr_numOpt_num ca 1, falsy_strOpt qh, falsy_strOpt idf]
  by_cases h1 : qh.getD "" = ""
  · rw [show (qh.getD "" == "") = true by simp [h1]]
    by_cases h2 : idf.getD "" = ""
    · rw [show (idf.getD "" == "") = true by simp [h2]]
      rw [show sOr (qh.getD "") (sOr (idf.getD "") (md5hex (q.getD ""))) = md5hex (q.getD "")
        from by unfold sOr; rw [if_pos h1, if_pos h2]]
      rfl
    · rw [show (idf.getD "" == "") = false by simp [h2], jsonOfStrOpt_of_ne h2]
      rw [show sOr (qh.getD "") (sOr (idf.getD "") (md5hex (q.getD ""))) = idf.getD ""
        from by unfold sOr; rw [if_pos h1, if_neg h2]]
      rfl
  · rw [show (qh.getD "" == "") = false by simp [h1], jsonOfStrOpt_of_ne h1]
    rw [show sOr (qh.getD "") (sOr (idf.getD "") (md5hex (q.getD ""))) = qh.getD ""
      from by unfold sOr; rw [if_neg h1]]
    rfl

/-- Witness for C6 (amended) on a record exercising all fallbacks, with
`md5hex` the identity and `sha256hex` the doubling function. -/
theorem c6_sql_record_fallbacks_witness :
    SqlChunker.chunkOfRecord (fun s => s) (fun s => s ++ s) (Json.obj c6WitnessFields) =
      Except.ok (some { id := "idv", text := "SELECT ?", raw_query := "SELECT 2",
                        source := "dbx", execution_time_ms := 5/2, calls := 3,
                        content_hash := "SELECT ?SELECT ?" }) := by
  have h := c6_sql_record_fallbacks (fun s => s) (fun s => s ++ s) c6WitnessFields
    (some "SELECT 2") (some "") (some "SELECT ?") (some "") (some "idv") (some "")
    (some "dbx") (some 0) (some (5/2)) (some 3)
    rfl rfl rfl rfl rfl rfl rfl rfl rfl rfl
  rw [h]
  rfl

end DbsVector
